import Mathlib

/-!
Shallow embedding of the `polka_trace` ink! contract (`src/lib.rs`).

Machine integers (`u128`, `u32`) are modelled as `Nat` together with the
explicit clamping the source performs (`checked_add(1).unwrap_or(MAX)`);
`ink::storage::Mapping` is modelled as a function into `Option`; `AccountId`
and `Timestamp` are modelled as `Nat`; `Vec<u8>` metadata is `List Nat`.
Every contract message becomes a function from the contract state (plus the
environment-supplied caller / timestamp) to a result paired with the state
after the call.
-/

namespace PolkaTraceModel

/-- Largest representable `u128` value. -/
def U128_MAX : Nat := 2 ^ 128 - 1

/-- Largest representable `u32` value. -/
def U32_MAX : Nat := 2 ^ 32 - 1

/-- Semantics of `self.next_product_id.checked_add(1).unwrap_or(u128::MAX)`. -/
def u128_checked_add_one (x : Nat) : Nat :=
  if x + 1 ≤ U128_MAX then x + 1 else U128_MAX

/-- Semantics of `current_count.checked_add(1).unwrap_or(u32::MAX)`. -/
def u32_checked_add_one (x : Nat) : Nat :=
  if x + 1 ≤ U32_MAX then x + 1 else U32_MAX

/-- `Mapping::insert` on a function-typed map. -/
def mapInsert {V : Type} (m : Nat → Option V) (k : Nat) (v : V) : Nat → Option V :=
  fun q => if q = k then some v else m q

/-- `Mapping::remove` on a function-typed map. -/
def mapRemove {V : Type} (m : Nat → Option V) (k : Nat) : Nat → Option V :=
  fun q => if q = k then none else m q

/-- The `EventType` enum from the source. -/
inductive EventType where
  | Created
  | Shipped
  | InTransit
  | Received
  | Inspected
  | Verified
  | Delivered
deriving DecidableEq

/-- The `PolkaTraceError` enum from the source. -/
inductive PolkaTraceError where
  | ProductAlreadyExists
  | UnauthorizedAccess
  | ProductNotFound
  | InvalidEvent
deriving DecidableEq

instance {ε α : Type} [DecidableEq ε] [DecidableEq α] : DecidableEq (Except ε α)
  | Except.ok x, Except.ok y =>
    if h : x = y then Decidable.isTrue (by rw [h])
    else Decidable.isFalse (by intro hc; cases hc; exact h rfl)
  | Except.ok _, Except.error _ => Decidable.isFalse (by intro hc; cases hc)
  | Except.error _, Except.ok _ => Decidable.isFalse (by intro hc; cases hc)
  | Except.error e, Except.error f =>
    if h : e = f then Decidable.isTrue (by rw [h])
    else Decidable.isFalse (by intro hc; cases hc; exact h rfl)

/-- The contract storage struct `PolkaTrace`. -/
structure PolkaTrace where
  product_owners : Nat → Option Nat
  product_manufacturers : Nat → Option Nat
  product_metadata : Nat → Option (List Nat)
  product_created_at : Nat → Option Nat
  product_event_count : Nat → Option Nat
  owner_products : Nat → Option (List Nat)
  manufacturer_products : Nat → Option (List Nat)
  authorized_accounts : Nat → Option Bool
  admin : Nat
  next_product_id : Nat

/-- The constructor `PolkaTrace::new` (the environment caller becomes admin and
is auto-authorized). -/
def PolkaTrace.new (caller : Nat) : PolkaTrace :=
  { product_owners := fun _ => none
    product_manufacturers := fun _ => none
    product_metadata := fun _ => none
    product_created_at := fun _ => none
    product_event_count := fun _ => none
    owner_products := fun _ => none
    manufacturer_products := fun _ => none
    authorized_accounts := mapInsert (fun _ => none) caller true
    admin := caller
    next_product_id := 1 }

/-- `is_authorized`: explicit set membership, or the caller is the admin. -/
def is_authorized (s : PolkaTrace) (account : Nat) : Bool :=
  (s.authorized_accounts account).getD false || account == s.admin

/-- `register_product`: allocate the next id (clamped), write the five product
maps, append the id to the caller's manufacturer and owner index lists. -/
def register_product (s : PolkaTrace) (caller timestamp : Nat) (metadata : List Nat) :
    Except PolkaTraceError Nat × PolkaTrace :=
  let product_id := s.next_product_id
  let s1 : PolkaTrace := { s with next_product_id := u128_checked_add_one s.next_product_id }
  let s2 : PolkaTrace :=
    { s1 with
      product_owners := mapInsert s1.product_owners product_id caller
      product_manufacturers := mapInsert s1.product_manufacturers product_id caller
      product_metadata := mapInsert s1.product_metadata product_id metadata
      product_created_at := mapInsert s1.product_created_at product_id timestamp
      product_event_count := mapInsert s1.product_event_count product_id 1 }
  let mlist := (s2.manufacturer_products caller).getD [] ++ [product_id]
  let s3 : PolkaTrace :=
    { s2 with manufacturer_products := mapInsert s2.manufacturer_products caller mlist }
  let olist := (s3.owner_products caller).getD [] ++ [product_id]
  let s4 : PolkaTrace :=
    { s3 with owner_products := mapInsert s3.owner_products caller olist }
  (Except.ok product_id, s4)

/-- The internal helper `transfer_ownership_internal`. -/
def transfer_ownership_internal (s : PolkaTrace) (product_id new_owner : Nat) :
    Except PolkaTraceError Unit × PolkaTrace :=
  match s.product_owners product_id with
  | none => (Except.error PolkaTraceError.ProductNotFound, s)
  | some old_owner =>
    let s1 : PolkaTrace :=
      { s with product_owners := mapInsert s.product_owners product_id new_owner }
    let old_list := ((s1.owner_products old_owner).getD []).filter (fun idx => idx != product_id)
    let s2 : PolkaTrace :=
      { s1 with owner_products := mapInsert s1.owner_products old_owner old_list }
    let new_list := ((s2.owner_products new_owner).getD []) ++ [product_id]
    let s3 : PolkaTrace :=
      { s2 with owner_products := mapInsert s2.owner_products new_owner new_list }
    (Except.ok (), s3)

/-- `log_event`: authorization check, existence check, saturating count bump,
then the `Received`-conditional ownership transfer. -/
def log_event (s : PolkaTrace) (caller product_id : Nat) (event_type : EventType) :
    Except PolkaTraceError Unit × PolkaTrace :=
  if !(is_authorized s caller) then
    (Except.error PolkaTraceError.UnauthorizedAccess, s)
  else if !((s.product_owners product_id).isSome) then
    (Except.error PolkaTraceError.ProductNotFound, s)
  else
    let new_count := u32_checked_add_one ((s.product_event_count product_id).getD 0)
    let s1 : PolkaTrace :=
      { s with product_event_count := mapInsert s.product_event_count product_id new_count }
    if event_type = EventType.Received then
      match transfer_ownership_internal s1 product_id caller with
      | (Except.ok _, s2) => (Except.ok (), s2)
      | (Except.error e, s2) => (Except.error e, s2)
    else
      (Except.ok (), s1)

/-- `verify_product`. -/
def verify_product (s : PolkaTrace) (product_id : Nat) : Bool :=
  (s.product_owners product_id).isSome

/-- `get_product`: the five-field snapshot. -/
def get_product (s : PolkaTrace) (product_id : Nat) :
    Option (Nat × Nat × List Nat × Nat × Nat) :=
  if !((s.product_owners product_id).isSome) then none
  else do
    let owner ← s.product_owners product_id
    let manufacturer ← s.product_manufacturers product_id
    let metadata ← s.product_metadata product_id
    let created_at ← s.product_created_at product_id
    some (owner, manufacturer, metadata, created_at,
      (s.product_event_count product_id).getD 0)

/-- `get_products_by_owner`. -/
def get_products_by_owner (s : PolkaTrace) (owner : Nat) : List Nat :=
  (s.owner_products owner).getD []

/-- `get_products_by_manufacturer`. -/
def get_products_by_manufacturer (s : PolkaTrace) (manufacturer : Nat) : List Nat :=
  (s.manufacturer_products manufacturer).getD []

/-- `add_authorized_account` (admin-gated). -/
def add_authorized_account (s : PolkaTrace) (caller account : Nat) :
    Except PolkaTraceError Unit × PolkaTrace :=
  if caller ≠ s.admin then
    (Except.error PolkaTraceError.UnauthorizedAccess, s)
  else
    (Except.ok (), { s with authorized_accounts := mapInsert s.authorized_accounts account true })

/-- `remove_authorized_account` (admin-gated). -/
def remove_authorized_account (s : PolkaTrace) (caller account : Nat) :
    Except PolkaTraceError Unit × PolkaTrace :=
  if caller ≠ s.admin then
    (Except.error PolkaTraceError.UnauthorizedAccess, s)
  else
    (Except.ok (), { s with authorized_accounts := mapRemove s.authorized_accounts account })

/-- `get_admin`. -/
def get_admin (s : PolkaTrace) : Nat :=
  s.admin

/-! ### Traces of mutating calls -/

/-- One mutating external call, together with its environment inputs
(caller identity and, for registration, the block timestamp). -/
inductive Op where
  | register (caller timestamp : Nat) (metadata : List Nat)
  | logEvent (caller product_id : Nat) (event_type : EventType)
  | addAuth (caller account : Nat)
  | removeAuth (caller account : Nat)

/-- Apply one call to the state, keeping only the post-state. -/
def applyOp (s : PolkaTrace) : Op → PolkaTrace
  | Op.register c t m => (register_product s c t m).2
  | Op.logEvent c p e => (log_event s c p e).2
  | Op.addAuth c a => (add_authorized_account s c a).2
  | Op.removeAuth c a => (remove_authorized_account s c a).2

/-- Run a sequence of calls. -/
def run (s : PolkaTrace) (ops : List Op) : PolkaTrace :=
  ops.foldl applyOp s

/-- Number of `register_product` calls in a trace. -/
def countRegs : List Op → Nat
  | [] => 0
  | Op.register _ _ _ :: rest => countRegs rest + 1
  | _ :: rest => countRegs rest

/-- Ids returned by a sequence of `register_product` calls
(each entry supplies caller, timestamp and metadata). -/
def registerAll (s : PolkaTrace) : List (Nat × Nat × List Nat) → List Nat
  | [] => []
  | a :: rest =>
    match register_product s a.1 a.2.1 a.2.2 with
    | (Except.ok id, s2) => id :: registerAll s2 rest
    | (Except.error _, s2) => registerAll s2 rest

/-- Post-state of a sequence of `log_event` calls on one product
(each entry supplies the caller and the event type). -/
def applyEvents (s : PolkaTrace) (product_id : Nat) (calls : List (Nat × EventType)) :
    PolkaTrace :=
  calls.foldl (fun st p => (log_event st p.1 product_id p.2).2) s

/-- Results of a sequence of `log_event` calls on one product. -/
def applyEventsResults (s : PolkaTrace) (product_id : Nat) :
    List (Nat × EventType) → List (Except PolkaTraceError Unit)
  | [] => []
  | p :: rest =>
    (log_event s p.1 product_id p.2).1 ::
      applyEventsResults (log_event s p.1 product_id p.2).2 product_id rest

/-! ### The ownership-index invariant -/

/-- Ownership-index consistency: every registered product id is in exactly the
list of the identity recorded in `product_owners`, and no owner list has
duplicates. -/
def OwnerIndexInv (s : PolkaTrace) : Prop :=
  (∀ id o, s.product_owners id = some o →
    ∀ a, id ∈ get_products_by_owner s a ↔ a = o) ∧
  (∀ a, (get_products_by_owner s a).Nodup)

/-- Auxiliary invariant: owner lists mention only registered ids. -/
def ListsRegistered (s : PolkaTrace) : Prop :=
  ∀ a id, id ∈ get_products_by_owner s a → (s.product_owners id).isSome = true

/-- Auxiliary invariant: every registered id is below the sequence counter. -/
def IdsBelowNext (s : PolkaTrace) : Prop :=
  ∀ id, (s.product_owners id).isSome = true → id < s.next_product_id

/-! ### Basic lemmas about the embedding -/

theorem mapInsert_self {V : Type} (m : Nat → Option V) (k : Nat) (v : V) :
    mapInsert m k v k = some v := by
  simp [mapInsert]

theorem mapInsert_ne {V : Type} (m : Nat → Option V) (k : Nat) (v : V) (q : Nat)
    (h : q ≠ k) : mapInsert m k v q = m q := by
  simp [mapInsert, h]

theorem u128_checked_add_one_eq_min (x : Nat) :
    u128_checked_add_one x = min (x + 1) U128_MAX := by
  unfold u128_checked_add_one
  split <;> omega

theorem u32_checked_add_one_eq_min (x : Nat) :
    u32_checked_add_one x = min (x + 1) U32_MAX := by
  unfold u32_checked_add_one
  split <;> omega

theorem register_product_eq (s : PolkaTrace) (c t : Nat) (m : List Nat) :
    register_product s c t m =
      (Except.ok s.next_product_id,
        { product_owners := mapInsert s.product_owners s.next_product_id c
          product_manufacturers := mapInsert s.product_manufacturers s.next_product_id c
          product_metadata := mapInsert s.product_metadata s.next_product_id m
          product_created_at := mapInsert s.product_created_at s.next_product_id t
          product_event_count := mapInsert s.product_event_count s.next_product_id 1
          owner_products :=
            mapInsert s.owner_products c ((s.owner_products c).getD [] ++ [s.next_product_id])
          manufacturer_products :=
            mapInsert s.manufacturer_products c
              ((s.manufacturer_products c).getD [] ++ [s.next_product_id])
          authorized_accounts := s.authorized_accounts
          admin := s.admin
          next_product_id := u128_checked_add_one s.next_product_id }) := rfl

theorem transfer_eq (s : PolkaTrace) (pid c o : Nat) (h : s.product_owners pid = some o) :
    transfer_ownership_internal s pid c =
      (Except.ok (),
        { s with
          product_owners := mapInsert s.product_owners pid c
          owner_products :=
            mapInsert
              (mapInsert s.owner_products o
                (((s.owner_products o).getD []).filter (fun idx => idx != pid)))
              c
              (((mapInsert s.owner_products o
                  (((s.owner_products o).getD []).filter (fun idx => idx != pid))) c).getD []
                ++ [pid]) }) := by
  unfold transfer_ownership_internal
  rw [h]

theorem log_event_unauth (s : PolkaTrace) (c pid : Nat) (et : EventType)
    (h : is_authorized s c = false) :
    log_event s c pid et = (Except.error PolkaTraceError.UnauthorizedAccess, s) := by
  simp [log_event, h]

theorem log_event_notfound (s : PolkaTrace) (c pid : Nat) (et : EventType)
    (hauth : is_authorized s c = true) (h : s.product_owners pid = none) :
    log_event s c pid et = (Except.error PolkaTraceError.ProductNotFound, s) := by
  simp [log_event, hauth, h]

theorem log_event_ok_plain (s : PolkaTrace) (c pid : Nat) (et : EventType)
    (hauth : is_authorized s c = true)
    (hsome : (s.product_owners pid).isSome = true)
    (hne : et ≠ EventType.Received) :
    log_event s c pid et =
      (Except.ok (),
        { s with
          product_event_count :=
            mapInsert s.product_event_count pid
              (u32_checked_add_one ((s.product_event_count pid).getD 0)) }) := by
  simp [log_event, hauth, hsome, hne]

theorem log_event_received_eq (s : PolkaTrace) (c pid o : Nat)
    (hauth : is_authorized s c = true) (ho : s.product_owners pid = some o) :
    log_event s c pid EventType.Received =
      (Except.ok (),
        { s with
          product_owners := mapInsert s.product_owners pid c
          product_event_count :=
            mapInsert s.product_event_count pid
              (u32_checked_add_one ((s.product_event_count pid).getD 0))
          owner_products :=
            mapInsert
              (mapInsert s.owner_products o
                (((s.owner_products o).getD []).filter (fun idx => idx != pid)))
              c
              (((mapInsert s.owner_products o
                  (((s.owner_products o).getD []).filter (fun idx => idx != pid))) c).getD []
                ++ [pid]) }) := by
  have hsome : (s.product_owners pid).isSome = true := by rw [ho]; rfl
  have htr := transfer_eq
    ({ s with
        product_event_count :=
          mapInsert s.product_event_count pid
            (u32_checked_add_one ((s.product_event_count pid).getD 0)) })
    pid c o ho
  simp only [log_event, hauth, hsome, Bool.not_true, Bool.false_eq_true, if_false, if_true]
  rw [htr]

/-! ### Claim C5: registration postcondition -/

/-- Claim C5: for every caller (authorized or not), timestamp and metadata,
`register_product` succeeds returning the current `next_product_id`, afterwards
`get_product` of that id is `(caller, caller, metadata, timestamp, 1)`, and the
id is appended to the end of the caller's owner and manufacturer index lists. -/
theorem claim_C5 (s : PolkaTrace) (c t : Nat) (m : List Nat) :
    (register_product s c t m).1 = Except.ok s.next_product_id ∧
    get_product (register_product s c t m).2 s.next_product_id = some (c, c, m, t, 1) ∧
    get_products_by_owner (register_product s c t m).2 c =
      get_products_by_owner s c ++ [s.next_product_id] ∧
    get_products_by_manufacturer (register_product s c t m).2 c =
      get_products_by_manufacturer s c ++ [s.next_product_id] := by
  rw [register_product_eq]
  refine ⟨rfl, ?_, ?_, ?_⟩
  · simp [get_product, mapInsert]
  · simp [get_products_by_owner, mapInsert]
  · simp [get_products_by_manufacturer, mapInsert]

/-! ### Claim C2: error characterization and check ordering of log_event -/

/-- Claim C2: `log_event` returns `UnauthorizedAccess` iff the caller fails
`is_authorized` (regardless of the product id); an authorized caller gets
`ProductNotFound` iff the product is unregistered; an authorized caller on a
registered product always gets success — no other error is ever returned. -/
theorem claim_C2 (s : PolkaTrace) (c pid : Nat) (et : EventType) :
    ((log_event s c pid et).1 = Except.error PolkaTraceError.UnauthorizedAccess ↔
      is_authorized s c = false) ∧
    (is_authorized s c = true →
      ((log_event s c pid et).1 = Except.error PolkaTraceError.ProductNotFound ↔
        s.product_owners pid = none)) ∧
    (is_authorized s c = true → (s.product_owners pid).isSome = true →
      (log_event s c pid et).1 = Except.ok ()) := by
  cases hauth : is_authorized s c with
  | false =>
    rw [log_event_unauth s c pid et hauth]
    simp
  | true =>
    cases ho : s.product_owners pid with
    | none =>
      rw [log_event_notfound s c pid et hauth ho]
      simp
    | some o =>
      by_cases het : et = EventType.Received
      · subst het
        rw [log_event_received_eq s c pid o hauth ho]
        simp
      · rw [log_event_ok_plain s c pid et hauth (by rw [ho]; rfl) het]
        simp

/-- Witness for claim C2: in the freshly constructed contract the admin is
authorized and logging against the unregistered id 5 yields `ProductNotFound`. -/
theorem claim_C2_witness :
    is_authorized (PolkaTrace.new 0) 0 = true ∧
    (log_event (PolkaTrace.new 0) 0 5 EventType.Shipped).1 =
      Except.error PolkaTraceError.ProductNotFound :=
  ⟨by decide,
    ((claim_C2 (PolkaTrace.new 0) 0 5 EventType.Shipped).2.1 (by decide)).mpr (by decide)⟩

/-! ### Claim C9: frame property of non-Received events -/

/-- Claim C9: a successful `log_event` with any event type other than
`Received` (including `Created`) changes only the product's event count; every
other storage component — all product maps at every id, both index maps, the
authorization set, the admin and the sequence counter — is unchanged. -/
theorem claim_C9 (s : PolkaTrace) (c pid : Nat) (et : EventType)
    (hauth : is_authorized s c = true)
    (hsome : (s.product_owners pid).isSome = true)
    (hne : et ≠ EventType.Received) :
    (log_event s c pid et).1 = Except.ok () ∧
    (log_event s c pid et).2.product_owners = s.product_owners ∧
    (log_event s c pid et).2.product_manufacturers = s.product_manufacturers ∧
    (log_event s c pid et).2.product_metadata = s.product_metadata ∧
    (log_event s c pid et).2.product_created_at = s.product_created_at ∧
    (log_event s c pid et).2.owner_products = s.owner_products ∧
    (log_event s c pid et).2.manufacturer_products = s.manufacturer_products ∧
    (log_event s c pid et).2.authorized_accounts = s.authorized_accounts ∧
    (log_event s c pid et).2.admin = s.admin ∧
    (log_event s c pid et).2.next_product_id = s.next_product_id ∧
    (log_event s c pid et).2.product_event_count pid =
      some (u32_checked_add_one ((s.product_event_count pid).getD 0)) ∧
    (∀ q, q ≠ pid → (log_event s c pid et).2.product_event_count q =
      s.product_event_count q) := by
  rw [log_event_ok_plain s c pid et hauth hsome hne]
  refine ⟨rfl, rfl, rfl, rfl, rfl, rfl, rfl, rfl, rfl, rfl, ?_, ?_⟩
  · exact mapInsert_self _ _ _
  · intro q hq
    exact mapInsert_ne _ _ _ _ hq

/-- Witness for claim C9: logging `Created` again on a fresh registration
succeeds. -/
theorem claim_C9_witness :
    (log_event (register_product (PolkaTrace.new 0) 0 5 []).2 0 1 EventType.Created).1 =
      Except.ok () :=
  (claim_C9 (register_product (PolkaTrace.new 0) 0 5 []).2 0 1 EventType.Created
    (by decide) (by decide) (by decide)).1

/-! ### Claim C3: atomicity on failure -/

/-- Claim C3: whenever `log_event`, `add_authorized_account` or
`remove_authorized_account` returns an error, the post-state equals the
pre-state; moreover, after the existence check of `log_event`, the
`ProductNotFound` branch inside `transfer_ownership_internal` is unreachable —
whatever the event-count map holds, the transfer succeeds. -/
theorem claim_C3 (s : PolkaTrace) (c pid a : Nat) (et : EventType) :
    (∀ e, (log_event s c pid et).1 = Except.error e → (log_event s c pid et).2 = s) ∧
    (∀ e, (add_authorized_account s c a).1 = Except.error e →
      (add_authorized_account s c a).2 = s) ∧
    (∀ e, (remove_authorized_account s c a).1 = Except.error e →
      (remove_authorized_account s c a).2 = s) ∧
    ((s.product_owners pid).isSome = true → ∀ ec : Nat → Option Nat,
      (transfer_ownership_internal { s with product_event_count := ec } pid c).1 =
        Except.ok ()) := by
  refine ⟨?_, ?_, ?_, ?_⟩
  · intro e he
    cases hauth : is_authorized s c with
    | false => rw [log_event_unauth s c pid et hauth]
    | true =>
      cases ho : s.product_owners pid with
      | none => rw [log_event_notfound s c pid et hauth ho]
      | some o =>
        by_cases het : et = EventType.Received
        · subst het
          rw [log_event_received_eq s c pid o hauth ho] at he
          simp at he
        · rw [log_event_ok_plain s c pid et hauth (by rw [ho]; rfl) het] at he
          simp at he
  · intro e he
    by_cases h : c ≠ s.admin
    · simp [add_authorized_account, h]
    · simp [add_authorized_account, h] at he
  · intro e he
    by_cases h : c ≠ s.admin
    · simp [remove_authorized_account, h]
    · simp [remove_authorized_account, h] at he
  · intro hsome ec
    obtain ⟨o, ho⟩ := Option.isSome_iff_exists.mp hsome
    have ho2 : ({ s with product_event_count := ec } : PolkaTrace).product_owners pid =
        some o := ho
    rw [transfer_eq _ pid c o ho2]

/-- Witness for claim C3: a non-admin's `add_authorized_account` fails with
`UnauthorizedAccess` and leaves the fresh contract state untouched. -/
theorem claim_C3_witness :
    (add_authorized_account (PolkaTrace.new 0) 1 2).1 =
      Except.error PolkaTraceError.UnauthorizedAccess ∧
    (add_authorized_account (PolkaTrace.new 0) 1 2).2 = PolkaTrace.new 0 :=
  ⟨by decide,
    (claim_C3 (PolkaTrace.new 0) 1 5 2 EventType.Created).2.1
      PolkaTraceError.UnauthorizedAccess (by decide)⟩

/-! ### Claim C10: registration after counter exhaustion -/

/-- Claim C10: with `next_product_id` at its `u128` maximum and a product
already registered under that maximal id, a further `register_product` still
returns `Ok(u128::MAX)`, overwrites the existing product's owner, manufacturer,
metadata, creation timestamp and event count with the new caller's values,
leaves the counter at the maximum, and appends another copy of the maximal id
to the caller's owner and manufacturer index lists (hence a duplicate entry
when the caller's list already holds it). -/
theorem claim_C10 (s : PolkaTrace) (c t : Nat) (m : List Nat)
    (hmax : s.next_product_id = U128_MAX)
    (_hreg : (s.product_owners U128_MAX).isSome = true) :
    (register_product s c t m).1 = Except.ok U128_MAX ∧
    (register_product s c t m).2.next_product_id = U128_MAX ∧
    get_product (register_product s c t m).2 U128_MAX = some (c, c, m, t, 1) ∧
    get_products_by_owner (register_product s c t m).2 c =
      get_products_by_owner s c ++ [U128_MAX] ∧
    get_products_by_manufacturer (register_product s c t m).2 c =
      get_products_by_manufacturer s c ++ [U128_MAX] ∧
    (U128_MAX ∈ get_products_by_owner s c →
      2 ≤ (get_products_by_owner (register_product s c t m).2 c).count U128_MAX) := by
  rw [register_product_eq, hmax]
  refine ⟨rfl, ?_, ?_, ?_, ?_, ?_⟩
  · rw [u128_checked_add_one_eq_min]
    simp
  · simp [get_product, mapInsert]
  · simp [get_products_by_owner, mapInsert]
  · simp [get_products_by_manufacturer, mapInsert]
  · intro hmem
    have hcnt : 0 < (get_products_by_owner s c).count U128_MAX :=
      List.count_pos_iff.mpr hmem
    simp only [get_products_by_owner, mapInsert_self, Option.getD_some, List.count_append,
      List.count_singleton, beq_self_eq_true, if_true]
    simp only [get_products_by_owner] at hcnt
    omega

/-- Witness for claim C10: a concrete exhausted state in which account 7 owns
product `u128::MAX`; account 3 re-registers and takes the id over. -/
theorem claim_C10_witness :
    (register_product
      { PolkaTrace.new 0 with
        next_product_id := U128_MAX
        product_owners := mapInsert (fun _ => none) U128_MAX 7 } 3 4 [9]).1 =
      Except.ok U128_MAX :=
  (claim_C10
    { PolkaTrace.new 0 with
      next_product_id := U128_MAX
      product_owners := mapInsert (fun _ => none) U128_MAX 7 } 3 4 [9]
    rfl (by simp [mapInsert])).1

/-! ### Observations about successful Received events -/

theorem byOwner_after_received (s : PolkaTrace) (c pid o : Nat)
    (hauth : is_authorized s c = true) (ho : s.product_owners pid = some o) (a : Nat) :
    get_products_by_owner (log_event s c pid EventType.Received).2 a =
      if a = c then
        (if c = o then (get_products_by_owner s o).filter (fun idx => idx != pid)
          else get_products_by_owner s c) ++ [pid]
      else if a = o then (get_products_by_owner s o).filter (fun idx => idx != pid)
      else get_products_by_owner s a := by
  rw [log_event_received_eq s c pid o hauth ho]
  simp only [get_products_by_owner, mapInsert]
  by_cases hac : a = c
  · subst hac
    by_cases hco : a = o
    · simp [hco]
    · simp [hco]
  · by_cases hao : a = o
    · subst hao
      simp [hac]
    · simp [hac, hao]

theorem get_product_some_iff (s : PolkaTrace) (pid o mfr t n : Nat) (m : List Nat) :
    get_product s pid = some (o, mfr, m, t, n) ↔
      s.product_owners pid = some o ∧ s.product_manufacturers pid = some mfr ∧
      s.product_metadata pid = some m ∧ s.product_created_at pid = some t ∧
      (s.product_event_count pid).getD 0 = n := by
  cases h1 : s.product_owners pid with
  | none => simp [get_product, h1]
  | some x =>
    cases h2 : s.product_manufacturers pid with
    | none => simp [get_product, h1, h2]
    | some y =>
      cases h3 : s.product_metadata pid with
      | none => simp [get_product, h1, h2, h3]
      | some z =>
        cases h4 : s.product_created_at pid with
        | none => simp [get_product, h1, h2, h3, h4]
        | some w => simp [get_product, h1, h2, h3, h4]

/-- Ownership-index consistency for any state with a single registered product. -/
theorem ownerIndexInv_of_single (s : PolkaTrace) (pid own : Nat)
    (hpo : ∀ q, s.product_owners q = if q = pid then some own else none)
    (hop : ∀ q, s.owner_products q = if q = own then some [pid] else none) :
    OwnerIndexInv s := by
  constructor
  · intro id o h a
    rw [hpo id] at h
    by_cases hid : id = pid
    · subst hid
      rw [if_pos rfl] at h
      injection h with h2
      rw [← h2]
      simp only [get_products_by_owner, hop a]
      by_cases ha : a = own <;> simp [ha]
    · rw [if_neg hid] at h
      cases h
  · intro a
    simp only [get_products_by_owner, hop a]
    by_cases ha : a = own <;> simp [ha]

/-! ### Claim C4: ownership-transfer postcondition of Received -/

/-- Claim C4 (amended): in an index-consistent state, for a registered product
with owner `o`, an authorized caller `c` distinct from `o` that logs `Received`
succeeds; afterwards `o`'s list no longer contains the id, `c`'s list contains
it exactly once, and `get_product` shows owner `c` with the manufacturer,
metadata and creation timestamp unchanged (the count is bumped, saturating). -/
theorem claim_C4 (s : PolkaTrace) (c pid o mfr t n : Nat) (m : List Nat)
    (hInv : OwnerIndexInv s)
    (hp : get_product s pid = some (o, mfr, m, t, n))
    (hauth : is_authorized s c = true)
    (hne : c ≠ o) :
    (log_event s c pid EventType.Received).1 = Except.ok () ∧
    pid ∉ get_products_by_owner (log_event s c pid EventType.Received).2 o ∧
    (get_products_by_owner (log_event s c pid EventType.Received).2 c).count pid = 1 ∧
    get_product (log_event s c pid EventType.Received).2 pid =
      some (c, mfr, m, t, u32_checked_add_one n) := by
  obtain ⟨ho, hmfr, hm, ht, hn⟩ := (get_product_some_iff s pid o mfr t n m).mp hp
  have hres : (log_event s c pid EventType.Received).1 = Except.ok () := by
    rw [log_event_received_eq s c pid o hauth ho]
  refine ⟨hres, ?_, ?_, ?_⟩
  · rw [byOwner_after_received s c pid o hauth ho o]
    rw [if_neg (fun h => hne h.symm), if_pos rfl]
    intro hmem
    rcases List.mem_filter.mp hmem with ⟨_, hbad⟩
    simp at hbad
  · rw [byOwner_after_received s c pid o hauth ho c]
    rw [if_pos rfl, if_neg hne]
    have hnotmem : pid ∉ get_products_by_owner s c := by
      intro hmem
      exact hne ((hInv.1 pid o ho c).mp hmem)
    rw [List.count_append, List.count_eq_zero_of_not_mem hnotmem]
    simp
  · rw [log_event_received_eq s c pid o hauth ho]
    rw [get_product_some_iff]
    refine ⟨?_, hmfr, hm, ht, ?_⟩
    · exact mapInsert_self _ _ _
    · show (mapInsert s.product_event_count pid
        (u32_checked_add_one ((s.product_event_count pid).getD 0)) pid).getD 0 = _
      rw [mapInsert_self, Option.getD_some, hn]

/-- Counterexample for claim C4: when the authorized caller is already the
current owner (account 1 registered product 1 and logs `Received` itself), the
call succeeds yet the old owner's list still contains the id, contradicting
the claim's unconditional "no longer contains" clause. -/
theorem claim_C4_counterexample :
    (log_event (register_product (PolkaTrace.new 1) 1 5 [3]).2 1 1 EventType.Received).1 =
      Except.ok () ∧
    1 ∈ get_products_by_owner
      (log_event (register_product (PolkaTrace.new 1) 1 5 [3]).2 1 1 EventType.Received).2
      1 := by
  refine ⟨rfl, ?_⟩
  show (1 : Nat) ∈ [1]
  simp

/-- Witness for claim C4: account 1 registers product 1, the admin authorizes
account 2, then account 2 logs `Received` and takes ownership. -/
theorem claim_C4_witness :
    (log_event
      (add_authorized_account (register_product (PolkaTrace.new 1) 1 5 [3]).2 1 2).2
      2 1 EventType.Received).1 = Except.ok () :=
  (claim_C4 (add_authorized_account (register_product (PolkaTrace.new 1) 1 5 [3]).2 1 2).2
    2 1 1 1 5 1 [3]
    (ownerIndexInv_of_single _ 1 1 (fun q => rfl) (fun q => rfl))
    (by decide) (by decide) (by decide)).1

/-! ### Claim C8: self-transfer moves the id to the tail -/

/-- Claim C8: in an index-consistent state, when the registered product's
current owner `A` is itself authorized and logs `Received`, the call succeeds,
ownership stays with `A`, `A`'s sequence becomes its old sequence with the id
filtered out and re-appended (so membership is unchanged, the id is last, and
the relative order of the remaining ids is preserved), and every other
identity's sequence is untouched. -/
theorem claim_C8 (s : PolkaTrace) (pid A : Nat)
    (hInv : OwnerIndexInv s)
    (ho : s.product_owners pid = some A)
    (hauth : is_authorized s A = true) :
    (log_event s A pid EventType.Received).1 = Except.ok () ∧
    (log_event s A pid EventType.Received).2.product_owners pid = some A ∧
    get_products_by_owner (log_event s A pid EventType.Received).2 A =
      (get_products_by_owner s A).filter (fun idx => idx != pid) ++ [pid] ∧
    (∀ x, x ∈ get_products_by_owner (log_event s A pid EventType.Received).2 A ↔
      x ∈ get_products_by_owner s A) ∧
    (get_products_by_owner (log_event s A pid EventType.Received).2 A).getLast? =
      some pid ∧
    (∀ a, a ≠ A → get_products_by_owner (log_event s A pid EventType.Received).2 a =
      get_products_by_owner s a) := by
  have hmem : pid ∈ get_products_by_owner s A := (hInv.1 pid A ho A).mpr rfl
  have hlist :
      get_products_by_owner (log_event s A pid EventType.Received).2 A =
        (get_products_by_owner s A).filter (fun idx => idx != pid) ++ [pid] := by
    rw [byOwner_after_received s A pid A hauth ho A]
    rw [if_pos rfl, if_pos rfl]
  refine ⟨?_, ?_, hlist, ?_, ?_, ?_⟩
  · rw [log_event_received_eq s A pid A hauth ho]
  · rw [log_event_received_eq s A pid A hauth ho]
    exact mapInsert_self _ _ _
  · intro x
    rw [hlist]
    constructor
    · intro hx
      rcases List.mem_append.mp hx with hx | hx
      · exact List.mem_of_mem_filter hx
      · rcases List.mem_singleton.mp hx with rfl
        exact hmem
    · intro hx
      by_cases hxp : x = pid
      · subst hxp
        exact List.mem_append.mpr (Or.inr (List.mem_singleton.mpr rfl))
      · refine List.mem_append.mpr (Or.inl (List.mem_filter.mpr ⟨hx, ?_⟩))
        simp [hxp]
  · rw [hlist]
    simp
  · intro a ha
    rw [byOwner_after_received s A pid A hauth ho a]
    rw [if_neg ha, if_neg ha]

/-- Witness for claim C8: account 1 registers product 1 and immediately logs
`Received` itself; the call succeeds. -/
theorem claim_C8_witness :
    (log_event (register_product (PolkaTrace.new 1) 1 5 [3]).2 1 1 EventType.Received).1 =
      Except.ok () :=
  (claim_C8 (register_product (PolkaTrace.new 1) 1 5 [3]).2 1 1
    (ownerIndexInv_of_single _ 1 1 (fun q => rfl) (fun q => rfl))
    (by decide) (by decide)).1

/-! ### Claim C7: event-count arithmetic -/

theorem is_authorized_congr (s1 s2 : PolkaTrace) (x : Nat)
    (hacc : s2.authorized_accounts = s1.authorized_accounts) (hadm : s2.admin = s1.admin) :
    is_authorized s2 x = is_authorized s1 x := by
  unfold is_authorized
  rw [hacc, hadm]

theorem log_event_ok_effect (s : PolkaTrace) (c pid : Nat) (et : EventType)
    (hauth : is_authorized s c = true)
    (hsome : (s.product_owners pid).isSome = true) :
    (log_event s c pid et).1 = Except.ok () ∧
    ((log_event s c pid et).2.product_owners pid).isSome = true ∧
    (log_event s c pid et).2.product_manufacturers = s.product_manufacturers ∧
    (log_event s c pid et).2.product_metadata = s.product_metadata ∧
    (log_event s c pid et).2.product_created_at = s.product_created_at ∧
    (log_event s c pid et).2.authorized_accounts = s.authorized_accounts ∧
    (log_event s c pid et).2.admin = s.admin ∧
    (log_event s c pid et).2.product_event_count pid =
      some (u32_checked_add_one ((s.product_event_count pid).getD 0)) := by
  by_cases het : et = EventType.Received
  · obtain ⟨o, ho⟩ := Option.isSome_iff_exists.mp hsome
    subst het
    rw [log_event_received_eq s c pid o hauth ho]
    refine ⟨rfl, ?_, rfl, rfl, rfl, rfl, rfl, mapInsert_self _ _ _⟩
    show (mapInsert s.product_owners pid c pid).isSome = true
    rw [mapInsert_self]
    rfl
  · rw [log_event_ok_plain s c pid et hauth hsome het]
    exact ⟨rfl, hsome, rfl, rfl, rfl, rfl, rfl, mapInsert_self _ _ _⟩

theorem applyEvents_spec (pid : Nat) :
    ∀ (calls : List (Nat × EventType)) (st : PolkaTrace),
      (st.product_owners pid).isSome = true →
      (∀ p ∈ calls, is_authorized st p.1 = true) →
      (st.product_event_count pid).getD 0 ≤ U32_MAX →
      applyEventsResults st pid calls = List.replicate calls.length (Except.ok ()) ∧
      ((applyEvents st pid calls).product_owners pid).isSome = true ∧
      (applyEvents st pid calls).product_manufacturers = st.product_manufacturers ∧
      (applyEvents st pid calls).product_metadata = st.product_metadata ∧
      (applyEvents st pid calls).product_created_at = st.product_created_at ∧
      ((applyEvents st pid calls).product_event_count pid).getD 0 =
        min ((st.product_event_count pid).getD 0 + calls.length) U32_MAX := by
  intro calls
  induction calls with
  | nil =>
    intro st hsome _ hle
    refine ⟨rfl, hsome, rfl, rfl, rfl, ?_⟩
    show (st.product_event_count pid).getD 0 =
      min ((st.product_event_count pid).getD 0 + List.length []) U32_MAX
    simp only [List.length_nil]
    omega
  | cons p rest ih =>
    intro st hsome hauth hle
    have hauth0 : is_authorized st p.1 = true := hauth p (List.mem_cons_self p rest)
    obtain ⟨hres, hsome2, hmfr, hmeta, hts, hacc, hadm, hcnt⟩ :=
      log_event_ok_effect st p.1 pid p.2 hauth0 hsome
    have hauth2 : ∀ q ∈ rest, is_authorized (log_event st p.1 pid p.2).2 q.1 = true := by
      intro q hq
      rw [is_authorized_congr st (log_event st p.1 pid p.2).2 q.1 hacc hadm]
      exact hauth q (List.mem_cons_of_mem p hq)
    have hcnt2 : ((log_event st p.1 pid p.2).2.product_event_count pid).getD 0 =
        min ((st.product_event_count pid).getD 0 + 1) U32_MAX := by
      rw [hcnt, Option.getD_some, u32_checked_add_one_eq_min]
    obtain ⟨ihres, ihsome, ihmfr, ihmeta, ihts, ihcnt⟩ :=
      ih (log_event st p.1 pid p.2).2 hsome2 hauth2 (by rw [hcnt2]; omega)
    have happ : applyEvents st pid (p :: rest) =
        applyEvents (log_event st p.1 pid p.2).2 pid rest := rfl
    refine ⟨?_, ?_, ?_, ?_, ?_, ?_⟩
    · show (log_event st p.1 pid p.2).1 ::
        applyEventsResults (log_event st p.1 pid p.2).2 pid rest = _
      rw [hres, ihres, List.length_cons, List.replicate_succ]
    · rw [happ]; exact ihsome
    · rw [happ, ihmfr, hmfr]
    · rw [happ, ihmeta, hmeta]
    · rw [happ, ihts, hts]
    · rw [happ, ihcnt, hcnt2, List.length_cons]
      omega

/-- Claim C7: on a freshly registered product, a list of `log_event` calls by
callers authorized in the post-registration state (any event types) all
succeed, and afterwards the `get_product` event count equals `1 + N` where `N`
is the number of calls, clamped at the `u32` maximum instead of wrapping. -/
theorem claim_C7 (s : PolkaTrace) (c t : Nat) (m : List Nat)
    (calls : List (Nat × EventType))
    (hauth : ∀ p ∈ calls, is_authorized (register_product s c t m).2 p.1 = true) :
    applyEventsResults (register_product s c t m).2 s.next_product_id calls =
      List.replicate calls.length (Except.ok ()) ∧
    (∃ ow, get_product (applyEvents (register_product s c t m).2 s.next_product_id calls)
      s.next_product_id = some (ow, c, m, t, min (1 + calls.length) U32_MAX)) := by
  have hsome : ((register_product s c t m).2.product_owners s.next_product_id).isSome =
      true := by
    show (mapInsert s.product_owners s.next_product_id c s.next_product_id).isSome = true
    rw [mapInsert_self]
    rfl
  have hcnt1 : ((register_product s c t m).2.product_event_count s.next_product_id).getD 0
      = 1 := by
    show (mapInsert s.product_event_count s.next_product_id 1 s.next_product_id).getD 0 = 1
    rw [mapInsert_self]
    rfl
  have hle : ((register_product s c t m).2.product_event_count s.next_product_id).getD 0 ≤
      U32_MAX := by
    rw [hcnt1]
    unfold U32_MAX
    norm_num
  obtain ⟨hres, hsome2, hmfr, hmeta, hts, hcntN⟩ :=
    applyEvents_spec s.next_product_id calls (register_product s c t m).2 hsome hauth hle
  obtain ⟨ow, how⟩ := Option.isSome_iff_exists.mp hsome2
  refine ⟨hres, ow, ?_⟩
  rw [get_product_some_iff]
  refine ⟨how, ?_, ?_, ?_, ?_⟩
  · rw [hmfr]
    exact mapInsert_self _ _ _
  · rw [hmeta]
    exact mapInsert_self _ _ _
  · rw [hts]
    exact mapInsert_self _ _ _
  · rw [hcntN, hcnt1, Nat.add_comm]

/-- Witness for claim C7: two events (a ship and a self-receive) on a fresh
registration by the admin leave the count at 3. -/
theorem claim_C7_witness :
    applyEventsResults (register_product (PolkaTrace.new 0) 0 5 []).2 1
      [(0, EventType.Shipped), (0, EventType.Received)] =
      List.replicate 2 (Except.ok ()) :=
  (claim_C7 (PolkaTrace.new 0) 0 5 []
    [(0, EventType.Shipped), (0, EventType.Received)] (by decide)).1

/-! ### Claim C6: product-id uniqueness -/

theorem registerAll_cons (s : PolkaTrace) (a : Nat × Nat × List Nat)
    (rest : List (Nat × Nat × List Nat)) :
    registerAll s (a :: rest) =
      s.next_product_id :: registerAll (register_product s a.1 a.2.1 a.2.2).2 rest := by
  show (match register_product s a.1 a.2.1 a.2.2 with
    | (Except.ok id, s2) => id :: registerAll s2 rest
    | (Except.error _, s2) => registerAll s2 rest) = _
  rw [register_product_eq]

theorem registerAll_ids :
    ∀ (args : List (Nat × Nat × List Nat)) (s : PolkaTrace),
      s.next_product_id ≤ U128_MAX →
      registerAll s args =
        (List.range args.length).map (fun k => min (s.next_product_id + k) U128_MAX) := by
  intro args
  induction args with
  | nil =>
    intro s h
    rfl
  | cons a rest ih =>
    intro s h
    rw [registerAll_cons]
    have hnext : (register_product s a.1 a.2.1 a.2.2).2.next_product_id =
        min (s.next_product_id + 1) U128_MAX := by
      show u128_checked_add_one s.next_product_id = _
      rw [u128_checked_add_one_eq_min]
    rw [ih (register_product s a.1 a.2.1 a.2.2).2 (by rw [hnext]; omega), hnext]
    rw [List.length_cons, List.range_succ_eq_map, List.map_cons, List.map_map]
    have hfun : (fun k => min (min (s.next_product_id + 1) U128_MAX + k) U128_MAX) =
        ((fun k => min (s.next_product_id + k) U128_MAX) ∘ Nat.succ) := by
      funext k
      simp only [Function.comp_apply, Nat.succ_eq_add_one]
      omega
    rw [hfun]
    congr 1
    omega

/-- Claim C6 (amended): `next_product_id` starts at 1, each registration
returns the current counter and bumps it by exactly 1, clamping (not wrapping)
at the `u128` maximum; the returned ids of any run of at most `2^128 - 1`
registrations are pairwise distinct.  (Once the counter saturates, further
registrations do collide on id `u128::MAX`; see the counterexample.) -/
theorem claim_C6 (a c t : Nat) (m : List Nat) :
    (PolkaTrace.new a).next_product_id = 1 ∧
    (∀ s : PolkaTrace, (register_product s c t m).1 = Except.ok s.next_product_id ∧
      (register_product s c t m).2.next_product_id =
        min (s.next_product_id + 1) U128_MAX) ∧
    (∀ args : List (Nat × Nat × List Nat), args.length ≤ U128_MAX →
      (registerAll (PolkaTrace.new a) args).Nodup) := by
  refine ⟨rfl, ?_, ?_⟩
  · intro s
    refine ⟨rfl, ?_⟩
    show u128_checked_add_one s.next_product_id = _
    rw [u128_checked_add_one_eq_min]
  · intro args hlen
    have h1 : (PolkaTrace.new a).next_product_id ≤ U128_MAX := by
      show 1 ≤ U128_MAX
      unfold U128_MAX
      norm_num
    rw [registerAll_ids args (PolkaTrace.new a) h1]
    have hcongr : ∀ k ∈ List.range args.length,
        min ((PolkaTrace.new a).next_product_id + k) U128_MAX = 1 + k := by
      intro k hk
      have hkl := List.mem_range.mp hk
      show min (1 + k) U128_MAX = 1 + k
      omega
    rw [List.map_congr_left hcongr]
    exact List.Nodup.map (fun x y hxy => by omega) (List.nodup_range args.length)

/-- Witness for claim C6: a single registration from the fresh contract
produces a duplicate-free id list. -/
theorem claim_C6_witness :
    ([(0, 0, ([] : List Nat))] : List (Nat × Nat × List Nat)).length ≤ U128_MAX ∧
    (registerAll (PolkaTrace.new 0) [(0, 0, ([] : List Nat))]).Nodup :=
  ⟨by unfold U128_MAX; norm_num,
    (claim_C6 0 0 0 []).2.2 [(0, 0, ([] : List Nat))] (by unfold U128_MAX; norm_num)⟩

theorem not_nodup_append_pair (l : List Nat) (x : Nat) : ¬ (l ++ [x, x]).Nodup := by
  intro h
  have h2 := List.Nodup.sublist (List.sublist_append_right l [x, x]) h
  simp at h2

theorem map_min_range_not_nodup :
    ¬ ((List.range (2 ^ 128)).map (fun k => min (1 + k) U128_MAX)).Nodup := by
  have hM : 1 ≤ U128_MAX := by
    unfold U128_MAX
    norm_num
  have hsz : 2 ^ 128 = (U128_MAX - 1) + 1 + 1 := by
    unfold U128_MAX
    omega
  rw [hsz, List.range_succ, List.range_succ, List.map_append, List.map_append]
  have h1 : min (1 + (U128_MAX - 1)) U128_MAX = U128_MAX := by omega
  have h2 : min (1 + (U128_MAX - 1 + 1)) U128_MAX = U128_MAX := by omega
  simp only [List.map_cons, List.map_nil, h1, h2, List.append_assoc, List.singleton_append]
  exact not_nodup_append_pair _ U128_MAX

/-- Counterexample for claim C6: running `2^128` registrations from the fresh
contract returns a duplicated id (the final two registrations both return
`u128::MAX`), so ids are not collision-free after counter exhaustion. -/
theorem claim_C6_counterexample :
    ¬ (registerAll (PolkaTrace.new 0)
        (List.replicate (2 ^ 128) (0, 0, ([] : List Nat)))).Nodup := by
  have h1 : (PolkaTrace.new 0).next_product_id ≤ U128_MAX := by
    show 1 ≤ U128_MAX
    unfold U128_MAX
    norm_num
  rw [registerAll_ids _ (PolkaTrace.new 0) h1, List.length_replicate]
  exact map_min_range_not_nodup

/-! ### Claim C1: the ownership-index invariant along traces -/

theorem owners_after_register (s : PolkaTrace) (c t : Nat) (m : List Nat) (q : Nat) :
    (register_product s c t m).2.product_owners q =
      if q = s.next_product_id then some c else s.product_owners q := rfl

theorem byOwner_after_register (s : PolkaTrace) (c t : Nat) (m : List Nat) (a : Nat) :
    get_products_by_owner (register_product s c t m).2 a =
      if a = c then get_products_by_owner s c ++ [s.next_product_id]
      else get_products_by_owner s a := by
  simp only [get_products_by_owner]
  show (mapInsert s.owner_products c ((s.owner_products c).getD [] ++ [s.next_product_id])
    a).getD [] = _
  by_cases hac : a = c <;> simp [mapInsert, hac]

theorem inv_register (s : PolkaTrace) (c t : Nat) (m : List Nat)
    (h1 : OwnerIndexInv s) (h2 : ListsRegistered s) (h3 : IdsBelowNext s) :
    OwnerIndexInv (register_product s c t m).2 ∧
    ListsRegistered (register_product s c t m).2 ∧
    (s.next_product_id + 1 ≤ U128_MAX → IdsBelowNext (register_product s c t m).2) := by
  have hfresh : s.product_owners s.next_product_id = none := by
    cases hx : s.product_owners s.next_product_id with
    | none => rfl
    | some v =>
      have hlt := h3 s.next_product_id (by rw [hx]; rfl)
      omega
  have hfreshl : ∀ a, s.next_product_id ∉ get_products_by_owner s a := by
    intro a hmem
    have hs := h2 a s.next_product_id hmem
    rw [hfresh] at hs
    cases hs
  refine ⟨⟨?_, ?_⟩, ?_, ?_⟩
  · intro id o h a
    rw [owners_after_register] at h
    rw [byOwner_after_register]
    by_cases hid : id = s.next_product_id
    · subst hid
      rw [if_pos rfl] at h
      injection h with ho2
      by_cases hac : a = c
      · rw [if_pos hac, List.mem_append, List.mem_singleton]
        have hmem := hfreshl c
        constructor
        · intro _
          omega
        · intro _
          exact Or.inr rfl
      · rw [if_neg hac]
        have hmem := hfreshl a
        constructor
        · intro hx
          exact absurd hx hmem
        · intro hx
          omega
    · rw [if_neg hid] at h
      have hio2 := h1.1 id o h
      by_cases hac : a = c
      · rw [if_pos hac, List.mem_append, List.mem_singleton, hio2 c]
        omega
      · rw [if_neg hac]
        exact hio2 a
  · intro a
    rw [byOwner_after_register]
    by_cases hac : a = c
    · rw [if_pos hac, List.nodup_append]
      refine ⟨h1.2 c, by simp, ?_⟩
      intro x hx hx2
      rw [List.mem_singleton] at hx2
      subst hx2
      exact hfreshl c hx
    · rw [if_neg hac]
      exact h1.2 a
  · intro a id hmem
    rw [byOwner_after_register] at hmem
    rw [owners_after_register]
    by_cases hid : id = s.next_product_id
    · rw [if_pos hid]
      rfl
    · rw [if_neg hid]
      by_cases hac : a = c
      · rw [if_pos hac] at hmem
        rcases List.mem_append.mp hmem with hmem | hmem
        · exact h2 c id hmem
        · rw [List.mem_singleton] at hmem
          exact absurd hmem hid
      · rw [if_neg hac] at hmem
        exact h2 a id hmem
  · intro hlt id hsome
    rw [owners_after_register] at hsome
    have hnext : (register_product s c t m).2.next_product_id =
        min (s.next_product_id + 1) U128_MAX := by
      show u128_checked_add_one s.next_product_id = _
      rw [u128_checked_add_one_eq_min]
    rw [hnext]
    by_cases hid : id = s.next_product_id
    · omega
    · rw [if_neg hid] at hsome
      have hbelow := h3 id hsome
      omega

theorem inv_logEvent (s : PolkaTrace) (c pid : Nat) (et : EventType)
    (h1 : OwnerIndexInv s) (h2 : ListsRegistered s) :
    OwnerIndexInv (log_event s c pid et).2 ∧ ListsRegistered (log_event s c pid et).2 ∧
    (∀ q, ((log_event s c pid et).2.product_owners q).isSome =
      (s.product_owners q).isSome) ∧
    (log_event s c pid et).2.next_product_id = s.next_product_id := by
  cases hauth : is_authorized s c with
  | false =>
    rw [log_event_unauth s c pid et hauth]
    exact ⟨h1, h2, fun q => rfl, rfl⟩
  | true =>
    cases ho : s.product_owners pid with
    | none =>
      rw [log_event_notfound s c pid et hauth ho]
      exact ⟨h1, h2, fun q => rfl, rfl⟩
    | some o =>
      by_cases het : et = EventType.Received
      · subst het
        have hiff := h1.1 pid o ho
        have howq : ∀ q, (log_event s c pid EventType.Received).2.product_owners q =
            if q = pid then some c else s.product_owners q := by
          intro q
          rw [log_event_received_eq s c pid o hauth ho]
          rfl
        have hfmem : ∀ x,
            x ∈ (get_products_by_owner s o).filter (fun idx => idx != pid) ↔
              (x ∈ get_products_by_owner s o ∧ x ≠ pid) := by
          intro x
          rw [List.mem_filter]
          simp [bne_iff_ne]
        refine ⟨⟨?_, ?_⟩, ?_, ?_, ?_⟩
        · intro id o2 h a
          rw [howq id] at h
          rw [byOwner_after_received s c pid o hauth ho a]
          by_cases hid : id = pid
          · rw [if_pos hid] at h
            injection h with ho2
            rw [hid]
            by_cases hac : a = c
            · rw [if_pos hac, List.mem_append, List.mem_singleton]
              by_cases hco : c = o
              · rw [if_pos hco, hfmem pid, hiff o]
                omega
              · rw [if_neg hco, hiff c]
                omega
            · rw [if_neg hac]
              by_cases hao : a = o
              · rw [if_pos hao, hfmem pid, hiff o]
                omega
              · rw [if_neg hao, hiff a]
                omega
          · rw [if_neg hid] at h
            have hio2 := h1.1 id o2 h
            by_cases hac : a = c
            · rw [if_pos hac, List.mem_append, List.mem_singleton]
              by_cases hco : c = o
              · rw [if_pos hco, hfmem id, hio2 o]
                omega
              · rw [if_neg hco, hio2 c]
                omega
            · rw [if_neg hac]
              by_cases hao : a = o
              · rw [if_pos hao, hfmem id, hio2 o]
                omega
              · rw [if_neg hao]
                exact hio2 a
        · intro a
          rw [byOwner_after_received s c pid o hauth ho a]
          by_cases hac : a = c
          · rw [if_pos hac, List.nodup_append]
            refine ⟨?_, by simp, ?_⟩
            · by_cases hco : c = o
              · rw [if_pos hco]
                exact List.Nodup.filter _ (h1.2 o)
              · rw [if_neg hco]
                exact h1.2 c
            · intro x hx hx2
              rw [List.mem_singleton] at hx2
              rw [hx2] at hx
              by_cases hco : c = o
              · rw [if_pos hco, hfmem pid] at hx
                exact hx.2 rfl
              · rw [if_neg hco] at hx
                exact hco ((hiff c).mp hx)
          · rw [if_neg hac]
            by_cases hao : a = o
            · rw [if_pos hao]
              exact List.Nodup.filter _ (h1.2 o)
            · rw [if_neg hao]
              exact h1.2 a
        · intro a id hmem
          rw [byOwner_after_received s c pid o hauth ho a] at hmem
          rw [howq id]
          by_cases hid : id = pid
          · rw [if_pos hid]
            rfl
          · rw [if_neg hid]
            by_cases hac : a = c
            · rw [if_pos hac, List.mem_append, List.mem_singleton] at hmem
              rcases hmem with hmem | hmem
              · by_cases hco : c = o
                · rw [if_pos hco, hfmem id] at hmem
                  exact h2 o id hmem.1
                · rw [if_neg hco] at hmem
                  exact h2 c id hmem
              · exact absurd hmem hid
            · rw [if_neg hac] at hmem
              by_cases hao : a = o
              · rw [if_pos hao, hfmem id] at hmem
                exact h2 o id hmem.1
              · rw [if_neg hao] at hmem
                exact h2 a id hmem
        · intro q
          rw [howq q]
          by_cases hq : q = pid
          · rw [if_pos hq, hq, ho]
            rfl
          · rw [if_neg hq]
        · rw [log_event_received_eq s c pid o hauth ho]
      · rw [log_event_ok_plain s c pid et hauth (by rw [ho]; rfl) het]
        exact ⟨h1, h2, fun q => rfl, rfl⟩

theorem authOp_frame (s : PolkaTrace) (c a : Nat) :
    (add_authorized_account s c a).2.product_owners = s.product_owners ∧
    (add_authorized_account s c a).2.owner_products = s.owner_products ∧
    (add_authorized_account s c a).2.next_product_id = s.next_product_id ∧
    (remove_authorized_account s c a).2.product_owners = s.product_owners ∧
    (remove_authorized_account s c a).2.owner_products = s.owner_products ∧
    (remove_authorized_account s c a).2.next_product_id = s.next_product_id := by
  unfold add_authorized_account remove_authorized_account
  by_cases h : c = s.admin <;> simp [h]

theorem inv_congr (s1 s2 : PolkaTrace)
    (hpo : s2.product_owners = s1.product_owners)
    (hop : s2.owner_products = s1.owner_products) :
    (OwnerIndexInv s1 → OwnerIndexInv s2) ∧ (ListsRegistered s1 → ListsRegistered s2) := by
  unfold OwnerIndexInv ListsRegistered get_products_by_owner
  rw [hpo, hop]
  exact ⟨id, id⟩

theorem run_noreg :
    ∀ (ops : List Op) (s : PolkaTrace), OwnerIndexInv s → ListsRegistered s →
      countRegs ops = 0 →
      OwnerIndexInv (run s ops) ∧ ListsRegistered (run s ops) := by
  intro ops
  induction ops with
  | nil =>
    intro s q1 q2 _
    exact ⟨q1, q2⟩
  | cons op rest ih =>
    intro s q1 q2 hcr
    cases op with
    | register c t m => simp [countRegs] at hcr
    | logEvent c p e =>
      have h := inv_logEvent s c p e q1 q2
      exact ih (log_event s c p e).2 h.1 h.2.1 (by simpa [countRegs] using hcr)
    | addAuth c a =>
      have hf := authOp_frame s c a
      have hc := inv_congr s (add_authorized_account s c a).2 hf.1 hf.2.1
      exact ih (add_authorized_account s c a).2 (hc.1 q1) (hc.2 q2)
        (by simpa [countRegs] using hcr)
    | removeAuth c a =>
      have hf := authOp_frame s c a
      have hc := inv_congr s (remove_authorized_account s c a).2 hf.2.2.2.1 hf.2.2.2.2.1
      exact ih (remove_authorized_account s c a).2 (hc.1 q1) (hc.2 q2)
        (by simpa [countRegs] using hcr)

theorem run_strong :
    ∀ (ops : List Op) (s : PolkaTrace),
      OwnerIndexInv s → ListsRegistered s → IdsBelowNext s →
      s.next_product_id + countRegs ops ≤ U128_MAX + 1 →
      OwnerIndexInv (run s ops) ∧ ListsRegistered (run s ops) := by
  intro ops
  induction ops with
  | nil =>
    intro s q1 q2 _ _
    exact ⟨q1, q2⟩
  | cons op rest ih =>
    intro s q1 q2 q3 hb
    cases op with
    | register c t m =>
      have hstep := inv_register s c t m q1 q2 q3
      have hcr : countRegs (Op.register c t m :: rest) = countRegs rest + 1 := rfl
      by_cases hlt : s.next_product_id + 1 ≤ U128_MAX
      · have hnext : (register_product s c t m).2.next_product_id =
            min (s.next_product_id + 1) U128_MAX := by
          show u128_checked_add_one s.next_product_id = _
          rw [u128_checked_add_one_eq_min]
        refine ih (register_product s c t m).2 hstep.1 hstep.2.1 (hstep.2.2 hlt) ?_
        rw [hnext]
        rw [hcr] at hb
        omega
      · have hrest : countRegs rest = 0 := by
          rw [hcr] at hb
          omega
        exact run_noreg rest (register_product s c t m).2 hstep.1 hstep.2.1 hrest
    | logEvent c p e =>
      have h := inv_logEvent s c p e q1 q2
      have hq3 : IdsBelowNext (log_event s c p e).2 := by
        intro id hsome
        rw [h.2.2.1 id] at hsome
        rw [h.2.2.2]
        exact q3 id hsome
      refine ih (log_event s c p e).2 h.1 h.2.1 hq3 ?_
      rw [h.2.2.2]
      simpa [countRegs] using hb
    | addAuth c a =>
      have hf := authOp_frame s c a
      have hc := inv_congr s (add_authorized_account s c a).2 hf.1 hf.2.1
      have hq3 : IdsBelowNext (add_authorized_account s c a).2 := by
        intro id hsome
        rw [hf.1] at hsome
        rw [hf.2.2.1]
        exact q3 id hsome
      refine ih (add_authorized_account s c a).2 (hc.1 q1) (hc.2 q2) hq3 ?_
      rw [hf.2.2.1]
      simpa [countRegs] using hb
    | removeAuth c a =>
      have hf := authOp_frame s c a
      have hc := inv_congr s (remove_authorized_account s c a).2 hf.2.2.2.1 hf.2.2.2.2.1
      have hq3 : IdsBelowNext (remove_authorized_account s c a).2 := by
        intro id hsome
        rw [hf.2.2.2.1] at hsome
        rw [hf.2.2.2.2.2]
        exact q3 id hsome
      refine ih (remove_authorized_account s c a).2 (hc.1 q1) (hc.2 q2) hq3 ?_
      rw [hf.2.2.2.2.2]
      simpa [countRegs] using hb

/-- Claim C1 (amended): starting from construction by any caller, every trace
of `register_product`, `log_event`, `add_authorized_account` and
`remove_authorized_account` calls containing at most `2^128 - 1` registrations
leaves the contract in a state satisfying the ownership-index invariant: each
registered id lies in exactly the `owner_products` sequence of the identity in
`product_owners`, and no sequence holds duplicates.  (Beyond `2^128 - 1`
registrations the clamped counter reuses id `u128::MAX` and the invariant
breaks; see the counterexample.) -/
theorem claim_C1 (a : Nat) (ops : List Op) (h : countRegs ops ≤ U128_MAX) :
    OwnerIndexInv (run (PolkaTrace.new a) ops) := by
  have q1 : OwnerIndexInv (PolkaTrace.new a) := by
    constructor
    · intro id o hth
      cases hth
    · intro x
      exact List.nodup_nil
  have q2 : ListsRegistered (PolkaTrace.new a) := by
    intro x id hmem
    exact absurd hmem (List.not_mem_nil id)
  have q3 : IdsBelowNext (PolkaTrace.new a) := by
    intro id hsome
    cases hsome
  refine (run_strong ops (PolkaTrace.new a) q1 q2 q3 ?_).1
  show 1 + countRegs ops ≤ U128_MAX + 1
  omega

/-- Witness for claim C1: a single registration trace keeps the invariant. -/
theorem claim_C1_witness :
    countRegs [Op.register 0 0 []] ≤ U128_MAX ∧
    OwnerIndexInv (run (PolkaTrace.new 0) [Op.register 0 0 []]) :=
  ⟨by decide, claim_C1 0 [Op.register 0 0 []] (by decide)⟩

theorem applyOp_register_next (s : PolkaTrace) (c t : Nat) (m : List Nat) :
    (applyOp s (Op.register c t m)).next_product_id =
      min (s.next_product_id + 1) U128_MAX := by
  show u128_checked_add_one s.next_product_id = _
  rw [u128_checked_add_one_eq_min]

theorem applyOp_register_byOwner (s : PolkaTrace) (c t : Nat) (m : List Nat) (a : Nat) :
    get_products_by_owner (applyOp s (Op.register c t m)) a =
      if a = c then get_products_by_owner s c ++ [s.next_product_id]
      else get_products_by_owner s a :=
  byOwner_after_register s c t m a

theorem run_replicate_register (n : Nat) :
    (run (PolkaTrace.new 0) (List.replicate n (Op.register 0 0 []))).next_product_id =
      min (1 + n) U128_MAX ∧
    get_products_by_owner
      (run (PolkaTrace.new 0) (List.replicate n (Op.register 0 0 []))) 0 =
      (List.range n).map (fun k => min (1 + k) U128_MAX) := by
  have hM : 1 ≤ U128_MAX := by
    unfold U128_MAX
    norm_num
  induction n with
  | zero =>
    constructor
    · show 1 = min (1 + 0) U128_MAX
      omega
    · rfl
  | succ k ih =>
    rcases ih with ⟨ih1, ih2⟩
    have hrep : List.replicate (k + 1) (Op.register 0 0 ([] : List Nat)) =
        List.replicate k (Op.register 0 0 []) ++ [Op.register 0 0 []] :=
      List.replicate_succ' k (Op.register 0 0 [])
    have hfold : run (PolkaTrace.new 0)
        (List.replicate k (Op.register 0 0 []) ++ [Op.register 0 0 []]) =
        applyOp (run (PolkaTrace.new 0) (List.replicate k (Op.register 0 0 [])))
          (Op.register 0 0 []) := by
      unfold run
      rw [List.foldl_append]
      rfl
    rw [hrep, hfold]
    constructor
    · rw [applyOp_register_next, ih1]
      omega
    · rw [applyOp_register_byOwner, if_pos rfl, ih2, ih1, List.range_succ, List.map_append]
      rfl

/-- Counterexample for claim C1: after the concrete trace of `2^128`
registrations by account 0, account 0's `owner_products` sequence contains
`u128::MAX` twice, so the ownership-index invariant of the claim fails in a
reachable state. -/
theorem claim_C1_counterexample :
    ¬ OwnerIndexInv
      (run (PolkaTrace.new 0) (List.replicate (2 ^ 128) (Op.register 0 0 []))) := by
  intro h
  have h2 := h.2 0
  rw [(run_replicate_register (2 ^ 128)).2] at h2
  exact map_min_range_not_nodup h2

end PolkaTraceModel
